import Mathlib

/-!
Shallow embedding of the version-classification and artifact-retention logic
of `condaci.py`, together with theorems settling the spec's claims.

Python string operations are modelled exactly:
- `s.split(sep)` for a one-character separator is `pySplit` (never returns
  an empty list; keeps empty fragments, `"".split(c) = [""]`);
- `s.startswith(p)` is `pyStartswith`;
- `sub in s` (substring containment) is `pyIn`;
- list indexing `l[i]` / `l[-1]` raises `IndexError` out of range, modelled
  by `pyIdx` / `pyLast` returning `Except PyErr`;
- `s.replace('\x5c', '/')` for one-character arguments is `pyReplace`;
- `os.path.split` (POSIX flavour) is `posix_split`.
-/

namespace Condaci

/-- Errors the embedded Python code can raise. `malformedIdentifier` is the
spec's taxonomy name for an unparsable hosted identifier; the code below
never produces it (it only raises `indexError`). -/
inductive PyErr where
  | indexError
  | valueError
  | malformedIdentifier
deriving DecidableEq

/-- Python `str.split` on a single-character separator, on character lists:
keeps empty fragments and yields `[[]]` on the empty string. -/
def splitOnChar (c : Char) : List Char → List (List Char)
  | [] => [[]]
  | x :: xs =>
    let r := splitOnChar c xs
    if x = c then [] :: r
    else (x :: r.headD []) :: r.tail

/-- Python `s.split(c)` for a one-character separator `c`. -/
def pySplit (s : String) (c : Char) : List String :=
  (splitOnChar c s.toList).map (fun cs => String.mk cs)

/-- Python list indexing `l[i]` for `i ≥ 0`: `IndexError` when out of range. -/
def pyIdx {α : Type} (l : List α) (i : Nat) : Except PyErr α :=
  match l[i]? with
  | some a => Except.ok a
  | none => Except.error PyErr.indexError

/-- Python list indexing `l[-1]`: `IndexError` on the empty list. -/
def pyLast {α : Type} (l : List α) : Except PyErr α :=
  match l.getLast? with
  | some a => Except.ok a
  | none => Except.error PyErr.indexError

/-- Bool-valued `List.IsPrefix` on characters (`listStartsWith l p` holds when
`p` is a prefix of `l`). -/
def listStartsWith : List Char → List Char → Bool
  | _, [] => true
  | [], _ :: _ => false
  | x :: xs, y :: ys => x == y && listStartsWith xs ys

/-- Bool-valued substring containment on character lists. -/
def containsSub (sub : List Char) : List Char → Bool
  | [] => listStartsWith [] sub
  | x :: xs => listStartsWith (x :: xs) sub || containsSub sub xs

/-- Python `s.startswith(pre)`. -/
def pyStartswith (s pre : String) : Bool :=
  listStartsWith s.toList pre.toList

/-- Python substring containment `sub in s`. -/
def pyIn (sub s : String) : Bool :=
  containsSub sub.toList s.toList

/-- Python `s.replace(a, b)` for one-character `a`, `b`. -/
def pyReplace (s : String) (a b : Char) : String :=
  String.mk (s.toList.map (fun c => if c = a then b else c))

/-- POSIX `os.path.split`: splits a path into `(head, tail)` at the last
slash, stripping trailing slashes from a non-all-slash head. -/
def posix_split (path : String) : String × String :=
  let parts := pySplit path '/'
  let tail := parts.getLastD ""
  let headRaw :=
    if parts.length ≤ 1 then ""
    else String.intercalate "/" parts.dropLast ++ "/"
  let headStr :=
    if headRaw ≠ "" ∧ ¬ (headRaw.toList.all (fun c => c = '/')) then
      String.mk (((headRaw.toList.reverse.dropWhile (fun c => c = '/'))).reverse)
    else headRaw
  (headStr, tail)

-- ------------------------- VERSIONING INTEGRATION --------------------------

/-- `same_version_different_build = lambda v1, v2: v2.startswith(v1.split('+')[0])`. -/
def same_version_different_build (v1 v2 : String) : Except PyErr Bool := do
  let base ← pyIdx (pySplit v1 '+') 0
  pure (pyStartswith v2 base)

/-- `version_from_git_tags`, as the pure rewrite it applies to the raw
(stripped, decoded) `git describe --tags` output: strip a leading `v`/`V`,
then if the result splits into exactly three `-`-parts `v-n-sha` return
`v+n.sha`, otherwise return it as is (the `ValueError` from unpacking is
caught).  `raw[0]` on an empty string raises `IndexError`. -/
def version_from_git_tags (raw : String) : Except PyErr String :=
  match raw.toList with
  | [] => Except.error PyErr.indexError
  | c :: _ =>
    let stripped := if c.toLower = 'v' then raw.drop 1 else raw
    match pySplit stripped '-' with
    | [v, n, sha] => Except.ok (v ++ "+" ++ n ++ "." ++ sha)
    | _ => Except.ok stripped

/-- `is_tag = lambda v: '+' not in v`. -/
def is_tag (v : String) : Bool := !(pyIn "+" v)

/-- `is_dev_tag = lambda v: v.split('.')[-1].startswith('dev')`. -/
def is_dev_tag (v : String) : Except PyErr Bool := do
  let last ← pyLast (pySplit v '.')
  pure (pyStartswith last "dev")

/-- `is_rc_tag = lambda v: 'rc' in v.split('+')[0]`. -/
def is_rc_tag (v : String) : Except PyErr Bool := do
  let base ← pyIdx (pySplit v '+') 0
  pure (pyIn "rc" base)

/-- `is_release_tag = lambda v: is_tag(v) and not (is_rc_tag(v) or is_dev_tag(v))`,
with Python's short-circuit evaluation order. -/
def is_release_tag (v : String) : Except PyErr Bool := do
  if is_tag v then
    let rc ← is_rc_tag v
    if rc then pure false
    else do
      let dev ← is_dev_tag v
      pure (!dev)
  else pure false

-- -------------------------- BINSTAR INTEGRATION ----------------------------

/-- A hosted artifact record: stores only the hosted identifier, all fields
are computed on access (class `BinstarFile`). -/
structure BinstarFile where
  full_name : String
deriving DecidableEq

/-- `self.full_name.split('/')[0]`. -/
def BinstarFile.user (f : BinstarFile) : Except PyErr String :=
  pyIdx (pySplit f.full_name '/') 0

/-- `self.full_name.split('/')[1]`. -/
def BinstarFile.name (f : BinstarFile) : Except PyErr String :=
  pyIdx (pySplit f.full_name '/') 1

/-- `'/'.join(self.full_name.split('/')[3:])`. -/
def BinstarFile.basename (f : BinstarFile) : String :=
  String.intercalate "/" ((pySplit f.full_name '/').drop 3)

/-- `self.full_name.split('/')[2]`. -/
def BinstarFile.version (f : BinstarFile) : Except PyErr String :=
  pyIdx (pySplit f.full_name '/') 2

/-- `self.full_name.replace('\x5c', '/').split('/')[3]`. -/
def BinstarFile.platform (f : BinstarFile) : Except PyErr String :=
  pyIdx (pySplit (pyReplace f.full_name '\\' '/') '/') 3

/-- `self.full_name.replace('\x5c', '/').split('/')[4].split('-')[2].split('.')[0]`. -/
def BinstarFile.configuration (f : BinstarFile) : Except PyErr String := do
  let seg ← pyIdx (pySplit (pyReplace f.full_name '\\' '/') '/') 4
  let tok ← pyIdx (pySplit seg '-') 2
  pyIdx (pySplit tok '.') 0

/-- `configuration_from_binstar_filename = lambda fn: fn.split('-')[-1].split('.')[0]`. -/
def configuration_from_binstar_filename (fn : String) : Except PyErr String := do
  let last ← pyLast (pySplit fn '-')
  pyIdx (pySplit last '.') 0

/-- `name_from_binstar_filename = lambda fn: fn.split('-')[0]`. -/
def name_from_binstar_filename (fn : String) : Except PyErr String :=
  pyIdx (pySplit fn '-') 0

/-- `version_from_binstar_filename = lambda fn: fn.split('-')[1]`. -/
def version_from_binstar_filename (fn : String) : Except PyErr String :=
  pyIdx (pySplit fn '-') 1

/-- `platform_from_binstar_filepath = lambda fp: p.split(p.split(fp)[0])[-1]`. -/
def platform_from_binstar_filepath (fp : String) : String :=
  (posix_split (posix_split fp).1).2

/-- The filter condition of `files_to_remove`, with Python's short-circuit
`and` evaluation order over the (fallible) record accessors. -/
def remove_cond (name configuration platform_ version : String)
    (f : BinstarFile) : Except PyErr Bool := do
  let n ← f.name
  if n = name then do
    let c ← f.configuration
    if c = configuration then do
      let p ← f.platform
      if p = platform_ then do
        let v ← f.version
        if v ≠ version then do
          let rel ← is_release_tag v
          if rel then pure false
          else same_version_different_build version v
        else pure false
      else pure false
    else pure false
  else pure false

/-- Python list comprehension `[f for f in l if cond(f)]` where the condition
may raise: the first exception propagates. -/
def pyFilter {α : Type} (p : α → Except PyErr Bool) : List α → Except PyErr (List α)
  | [] => Except.ok []
  | x :: xs => do
    let b ← p x
    let rest ← pyFilter p xs
    if b then pure (x :: rest) else pure rest

/-- `files_to_remove(b, user, channel, filepath)`; the hosted files the API
returns for `(user, channel)` are passed explicitly as `all_files`. -/
def files_to_remove (all_files : List BinstarFile) (filepath : String) :
    Except PyErr (List BinstarFile) := do
  let platform_ := platform_from_binstar_filepath filepath
  let filename := (posix_split filepath).2
  let name ← name_from_binstar_filename filename
  let version ← version_from_binstar_filename filename
  let configuration ← configuration_from_binstar_filename filename
  pyFilter (remove_cond name configuration platform_ version) all_files

/-- `purge_old_binstar_files`: returns the deletions issued against the
hosting API and the hosted set after those deletions. -/
def purge_old_binstar_files (hosted : List BinstarFile) (filepath : String) :
    Except PyErr (List BinstarFile × List BinstarFile) := do
  let to_remove ← files_to_remove hosted filepath
  pure (to_remove, hosted.filter (fun f => !(to_remove.contains f)))

/-- The purge decision of `binstar_upload_and_purge` (the upload itself is an
external side effect): on any channel other than `"main"` purge, on `"main"`
do nothing. -/
def binstar_upload_and_purge (channel : String) (hosted : List BinstarFile)
    (filepath : String) : Except PyErr (List BinstarFile × List BinstarFile) :=
  if channel ≠ "main" then purge_old_binstar_files hosted filepath
  else Except.ok ([], hosted)

-- ------------------- total counterparts of the accessors -------------------

/-- `True` iff the `Except` computation succeeded. -/
def exceptOk {ε α : Type} : Except ε α → Bool
  | Except.ok _ => true
  | Except.error _ => false

/-- The pre-`+` portion of a version string (`v.split('+')[0]`, total). -/
def base_t (v : String) : String := (pySplit v '+').headD ""

/-- `same_version_different_build`, total. -/
def svdb_t (v1 v2 : String) : Bool := pyStartswith v2 (base_t v1)

/-- `is_rc_tag`, total. -/
def is_rc_tag_t (v : String) : Bool := pyIn "rc" (base_t v)

/-- `is_dev_tag`, total. -/
def is_dev_tag_t (v : String) : Bool :=
  pyStartswith ((pySplit v '.').getLastD "") "dev"

/-- `is_release_tag`, total. -/
def is_release_tag_t (v : String) : Bool :=
  is_tag v && !(is_rc_tag_t v || is_dev_tag_t v)

/-- `BinstarFile.name`, total. -/
def name_t (f : BinstarFile) : String := (pySplit f.full_name '/').getD 1 ""

/-- `BinstarFile.version`, total. -/
def version_t (f : BinstarFile) : String := (pySplit f.full_name '/').getD 2 ""

/-- `BinstarFile.platform`, total. -/
def platform_t (f : BinstarFile) : String :=
  (pySplit (pyReplace f.full_name '\\' '/') '/').getD 3 ""

/-- Segment 4 of the normalized hosted identifier, total. -/
def norm_seg4 (f : BinstarFile) : String :=
  (pySplit (pyReplace f.full_name '\\' '/') '/').getD 4 ""

/-- `BinstarFile.configuration`, total. -/
def configuration_t (f : BinstarFile) : String :=
  (pySplit ((pySplit (norm_seg4 f) '-').getD 2 "") '.').headD ""

/-- `name_from_binstar_filename`, total. -/
def name_fn_t (fn : String) : String := (pySplit fn '-').headD ""

/-- `version_from_binstar_filename`, total. -/
def version_fn_t (fn : String) : String := (pySplit fn '-').getD 1 ""

/-- `configuration_from_binstar_filename`, total. -/
def configuration_fn_t (fn : String) : String :=
  (pySplit ((pySplit fn '-').getLastD "") '.').headD ""

/-- A hosted record is well formed when all four accessors used by the
retention filter succeed. -/
def wf (f : BinstarFile) : Bool :=
  exceptOk f.name && exceptOk f.configuration &&
  exceptOk f.platform && exceptOk f.version

/-- The retention filter condition as a total Boolean predicate: same name,
same configuration, same platform, different version, hosted version not a
release tag, hosted version on the same release line as the new version. -/
def removal_condition (name configuration platform_ version : String)
    (f : BinstarFile) : Bool :=
  name_t f == name && configuration_t f == configuration &&
  platform_t f == platform_ && version_t f != version &&
  !(is_release_tag_t (version_t f)) && svdb_t version (version_t f)

-- ------------------------------- lemmas ------------------------------------

theorem splitOnChar_ne_nil (c : Char) (l : List Char) : splitOnChar c l ≠ [] := by
  cases l with
  | nil => simp [splitOnChar]
  | cons x xs =>
    simp only [splitOnChar]
    split <;> simp

theorem pySplit_ne_nil (s : String) (c : Char) : pySplit s c ≠ [] := by
  simp [pySplit, splitOnChar_ne_nil]

theorem except_bind_ok {ε α β : Type} (a : α) (f : α → Except ε β) :
    (Except.ok a : Except ε α) >>= f = f a := rfl

theorem except_bind_err {ε α β : Type} (e : ε) (f : α → Except ε β) :
    (Except.error e : Except ε α) >>= f = Except.error e := rfl

theorem except_pure {ε α : Type} (a : α) : (pure a : Except ε α) = Except.ok a := rfl

theorem except_map_ok {ε α β : Type} (g : α → β) (a : α) :
    (g <$> (Except.ok a : Except ε α)) = Except.ok (g a) := rfl

theorem splitOnChar_headD (c : Char) (l : List Char) :
    (splitOnChar c l).headD [] = l.takeWhile (fun x => x != c) := by
  induction l with
  | nil => simp [splitOnChar]
  | cons x xs ih =>
    by_cases h : x = c
    · simp [splitOnChar, h, List.takeWhile_cons]
    · cases hs : splitOnChar c xs with
      | nil => exact absurd hs (splitOnChar_ne_nil c xs)
      | cons y ys =>
        rw [hs] at ih
        simp only [List.headD_cons] at ih
        simp [splitOnChar, hs, h, List.takeWhile_cons, ih]

theorem pySplit_headD (s : String) (c : Char) :
    (pySplit s c).headD "" = String.mk (s.toList.takeWhile (fun x => x != c)) := by
  have h := splitOnChar_ne_nil c s.toList
  rw [pySplit]
  cases hs : splitOnChar c s.toList with
  | nil => exact absurd hs h
  | cons y ys =>
    have := splitOnChar_headD c s.toList
    rw [hs] at this
    simp at this
    simp [List.headD, ← this]

theorem listStartsWith_iff (l p : List Char) :
    listStartsWith l p = true ↔ p <+: l := by
  induction p generalizing l with
  | nil => simp [listStartsWith]
  | cons y ys ih =>
    cases l with
    | nil => simp [listStartsWith]
    | cons x xs =>
      simp only [listStartsWith, Bool.and_eq_true, beq_iff_eq, List.cons_prefix_cons, ih]
      constructor
      · rintro ⟨h1, h2⟩; exact ⟨h1.symm, h2⟩
      · rintro ⟨h1, h2⟩; exact ⟨h1.symm, h2⟩

theorem containsSub_iff (sub l : List Char) :
    containsSub sub l = true ↔ sub <:+: l := by
  induction l with
  | nil =>
    simp only [containsSub, listStartsWith_iff, List.prefix_nil, List.infix_nil]
  | cons x xs ih =>
    simp only [containsSub, Bool.or_eq_true, listStartsWith_iff, ih,
      List.infix_cons_iff]

theorem pyIn_iff (sub s : String) :
    pyIn sub s = true ↔ sub.toList <:+: s.toList := by
  simp [pyIn, containsSub_iff]

theorem pyStartswith_iff (s pre : String) :
    pyStartswith s pre = true ↔ pre.toList <+: s.toList := by
  simp [pyStartswith, listStartsWith_iff]

theorem singleton_infix_iff (a : Char) (l : List Char) :
    [a] <:+: l ↔ a ∈ l := by
  induction l with
  | nil => simp
  | cons x xs ih =>
    simp only [List.infix_cons_iff, List.cons_prefix_cons, ih, List.mem_cons]
    simp

theorem pyIdx_eq_ok_iff {α : Type} (l : List α) (i : Nat) (a : α) :
    pyIdx l i = Except.ok a ↔ l[i]? = some a := by
  simp only [pyIdx]
  cases h : l[i]? <;> simp

theorem pyIdx_of_lt {α : Type} (l : List α) (i : Nat) (d : α) (h : i < l.length) :
    pyIdx l i = Except.ok (l.getD i d) := by
  rw [pyIdx_eq_ok_iff, List.getD_eq_getElem l d h]
  exact List.getElem?_eq_getElem h

theorem pyIdx_err_of_le {α : Type} (l : List α) (i : Nat) (h : l.length ≤ i) :
    pyIdx l i = Except.error PyErr.indexError := by
  simp [pyIdx, List.getElem?_eq_none h]

theorem pyIdx_zero {α : Type} (l : List α) (d : α) (h : l ≠ []) :
    pyIdx l 0 = Except.ok (l.headD d) := by
  cases l with
  | nil => exact absurd rfl h
  | cons x xs => simp [pyIdx]

theorem pyLast_ok {α : Type} (l : List α) (d : α) (h : l ≠ []) :
    pyLast l = Except.ok (l.getLastD d) := by
  cases l with
  | nil => exact absurd rfl h
  | cons x xs =>
    simp [pyLast, List.getLast?_eq_getLast (x :: xs) (by simp),
      List.getLastD_eq_getLast?, List.getLast?_eq_getLast]

theorem svdb_eq (v1 v2 : String) :
    same_version_different_build v1 v2 = Except.ok (svdb_t v1 v2) := by
  rw [same_version_different_build,
    pyIdx_zero (pySplit v1 '+') "" (pySplit_ne_nil v1 '+')]
  rfl

theorem is_rc_tag_eq (v : String) : is_rc_tag v = Except.ok (is_rc_tag_t v) := by
  rw [is_rc_tag, pyIdx_zero (pySplit v '+') "" (pySplit_ne_nil v '+')]
  rfl

theorem is_dev_tag_eq (v : String) : is_dev_tag v = Except.ok (is_dev_tag_t v) := by
  rw [is_dev_tag, pyLast_ok (pySplit v '.') "" (pySplit_ne_nil v '.')]
  rfl

theorem is_release_tag_eq (v : String) :
    is_release_tag v = Except.ok (is_release_tag_t v) := by
  rw [is_release_tag, is_release_tag_t]
  by_cases h : is_tag v
  · rw [if_pos h, is_rc_tag_eq, except_bind_ok]
    by_cases hrc : is_rc_tag_t v
    · simp [hrc, h, except_pure]
    · simp only [Bool.not_eq_true] at hrc
      simp [hrc, h, is_dev_tag_eq, except_bind_ok, except_pure, except_map_ok]
  · simp only [Bool.not_eq_true] at h
    simp [h, except_pure]

theorem string_toList_mk (l : List Char) : (String.mk l).toList = l := rfl

theorem string_mk_toList (s : String) : String.mk s.toList = s := rfl

theorem string_toList_append (s t : String) :
    (s ++ t).toList = s.toList ++ t.toList := String.data_append s t

theorem getLastD_map {α β : Type} (g : α → β) (l : List α) (d : α) :
    (l.map g).getLastD (g d) = g (l.getLastD d) := by
  induction l generalizing d with
  | nil => rfl
  | cons x xs ih => rw [List.map_cons, List.getLastD_cons, List.getLastD_cons, ih x]

theorem pySplit_getLastD (s : String) (c : Char) :
    (pySplit s c).getLastD "" = String.mk ((splitOnChar c s.toList).getLastD []) := by
  rw [pySplit]
  exact getLastD_map (fun cs => String.mk cs) (splitOnChar c s.toList) []

theorem exceptOk_ok {ε α : Type} (e : Except ε α) (h : exceptOk e = true) :
    ∃ a, e = Except.ok a := by
  cases e with
  | ok a => exact ⟨a, rfl⟩
  | error e => simp [exceptOk] at h

theorem pyIdx_ok_val {α : Type} {l : List α} {i : Nat} {a : α} (d : α)
    (h : pyIdx l i = Except.ok a) : a = l.getD i d := by
  rw [pyIdx_eq_ok_iff] at h
  obtain ⟨hlt, hv⟩ := List.getElem?_eq_some.1 h
  rw [List.getD_eq_getElem l d hlt, hv]

theorem pyIdx_ok_getD {α : Type} (l : List α) (i : Nat) (d : α)
    (h : exceptOk (pyIdx l i) = true) : pyIdx l i = Except.ok (l.getD i d) := by
  obtain ⟨a, ha⟩ := exceptOk_ok _ h
  rw [ha, pyIdx_ok_val d ha]

theorem name_ok (f : BinstarFile) (h : exceptOk f.name = true) :
    f.name = Except.ok (name_t f) :=
  pyIdx_ok_getD _ 1 "" h

theorem version_ok (f : BinstarFile) (h : exceptOk f.version = true) :
    f.version = Except.ok (version_t f) :=
  pyIdx_ok_getD _ 2 "" h

theorem platform_ok (f : BinstarFile) (h : exceptOk f.platform = true) :
    f.platform = Except.ok (platform_t f) :=
  pyIdx_ok_getD _ 3 "" h

theorem exceptOk_bind {ε α β : Type} (e : Except ε α) (g : α → Except ε β)
    (h : exceptOk (e >>= g) = true) :
    ∃ a, e = Except.ok a ∧ exceptOk (g a) = true := by
  cases e with
  | ok a => exact ⟨a, rfl, h⟩
  | error er => simp [except_bind_err, exceptOk] at h

theorem configuration_ok (f : BinstarFile) (h : exceptOk f.configuration = true) :
    f.configuration = Except.ok (configuration_t f) := by
  rw [BinstarFile.configuration] at h ⊢
  obtain ⟨seg, h4, h1⟩ := exceptOk_bind _ _ h
  rw [h4]
  simp only [except_bind_ok]
  obtain ⟨tok, h2, h3⟩ := exceptOk_bind _ _ h1
  rw [h2]
  simp only [except_bind_ok]
  rw [pyIdx_zero _ "" (pySplit_ne_nil tok '.')]
  have hseg : seg = norm_seg4 f := pyIdx_ok_val "" h4
  have htok : tok = (pySplit (norm_seg4 f) '-').getD 2 "" := by
    rw [← hseg]; exact pyIdx_ok_val "" h2
  rw [configuration_t, ← htok]

theorem remove_cond_eq (n c p v : String) (f : BinstarFile) (h : wf f = true) :
    remove_cond n c p v f = Except.ok (removal_condition n c p v f) := by
  rw [wf] at h
  simp only [Bool.and_eq_true] at h
  obtain ⟨⟨⟨hn, hc⟩, hp⟩, hv⟩ := h
  simp only [remove_cond, name_ok f hn, configuration_ok f hc, platform_ok f hp,
    version_ok f hv, is_release_tag_eq, svdb_eq, except_bind_ok]
  by_cases h1 : name_t f = n <;> by_cases h2 : configuration_t f = c <;>
    by_cases h3 : platform_t f = p <;> by_cases h4 : version_t f = v <;>
    by_cases h5 : is_release_tag_t (version_t f) = true <;>
    simp [h1, h2, h3, h4, h5, removal_condition, except_pure, bne_iff_ne]

theorem pyFilter_eq {α : Type} (p : α → Except PyErr Bool) (q : α → Bool)
    (l : List α) (h : ∀ x ∈ l, p x = Except.ok (q x)) :
    pyFilter p l = Except.ok (l.filter q) := by
  induction l with
  | nil => simp [pyFilter]
  | cons x xs ih =>
    rw [pyFilter, h x (by simp), except_bind_ok,
      ih (fun y hy => h y (by simp [hy])), except_bind_ok]
    by_cases hq : q x = true <;> simp [List.filter_cons, hq, except_pure]

theorem name_fn_ok (fn : String) :
    name_from_binstar_filename fn = Except.ok (name_fn_t fn) := by
  rw [name_from_binstar_filename, pyIdx_zero _ "" (pySplit_ne_nil fn '-')]
  rfl

theorem version_fn_ok (fn : String) (h : 2 ≤ (pySplit fn '-').length) :
    version_from_binstar_filename fn = Except.ok (version_fn_t fn) :=
  pyIdx_of_lt _ 1 "" h

theorem configuration_fn_ok (fn : String) :
    configuration_from_binstar_filename fn = Except.ok (configuration_fn_t fn) := by
  rw [configuration_from_binstar_filename,
    pyLast_ok _ "" (pySplit_ne_nil fn '-'), except_bind_ok,
    pyIdx_zero _ "" (pySplit_ne_nil _ '.')]
  rfl

theorem files_to_remove_eq (all_files : List BinstarFile) (filepath : String)
    (hlen : 2 ≤ (pySplit (posix_split filepath).2 '-').length)
    (hwf : ∀ f ∈ all_files, wf f = true) :
    files_to_remove all_files filepath = Except.ok (all_files.filter
      (removal_condition (name_fn_t (posix_split filepath).2)
        (configuration_fn_t (posix_split filepath).2)
        (platform_from_binstar_filepath filepath)
        (version_fn_t (posix_split filepath).2))) := by
  simp only [files_to_remove]
  rw [name_fn_ok, except_bind_ok, version_fn_ok _ hlen, except_bind_ok,
    configuration_fn_ok, except_bind_ok]
  exact pyFilter_eq _ _ _ (fun f hf => remove_cond_eq _ _ _ _ f (hwf f hf))

theorem splitOnChar_not_mem (c : Char) (l : List Char) (h : c ∉ l) :
    splitOnChar c l = [l] := by
  induction l with
  | nil => rfl
  | cons x xs ih =>
    simp only [List.mem_cons, not_or] at h
    obtain ⟨hx, hxs⟩ := h
    simp [splitOnChar, Ne.symm hx, ih hxs]

theorem splitOnChar_append (c : Char) (a rest : List Char) (h : c ∉ a) :
    splitOnChar c (a ++ c :: rest) = a :: splitOnChar c rest := by
  induction a with
  | nil => simp [splitOnChar]
  | cons x xs ih =>
    simp only [List.mem_cons, not_or] at h
    obtain ⟨hx, hxs⟩ := h
    rw [List.cons_append]
    simp [splitOnChar, Ne.symm hx, ih hxs]

theorem map_replace_eq_self (a b : Char) (l : List Char) (h : a ∉ l) :
    l.map (fun c => if c = a then b else c) = l := by
  induction l with
  | nil => rfl
  | cons x xs ih =>
    simp only [List.mem_cons, not_or] at h
    simp [Ne.symm h.1, ih h.2]

theorem pyReplace_eq_self (s : String) (a b : Char) (h : a ∉ s.toList) :
    pyReplace s a b = s := by
  rw [pyReplace, map_replace_eq_self a b s.toList h, string_mk_toList]

instance exceptDecEq {ε α : Type} [DecidableEq ε] [DecidableEq α] :
    DecidableEq (Except ε α) := fun a b =>
  match a, b with
  | Except.ok x, Except.ok y =>
    if h : x = y then Decidable.isTrue (by rw [h])
    else Decidable.isFalse (by intro hc; cases hc; exact h rfl)
  | Except.error x, Except.error y =>
    if h : x = y then Decidable.isTrue (by rw [h])
    else Decidable.isFalse (by intro hc; cases hc; exact h rfl)
  | Except.ok x, Except.error y => Decidable.isFalse (by intro hc; cases hc)
  | Except.error x, Except.ok y => Decidable.isFalse (by intro hc; cases hc)

/-- The leading `v`/`V` strip that `version_from_git_tags` applies before
splitting (on a nonempty string). -/
def strip_v (raw : String) : String :=
  if (raw.toList.headD ' ').toLower = 'v' then raw.drop 1 else raw

theorem toList_eq_nil {s : String} (h : s.toList = []) : s = "" :=
  congrArg String.mk h

-- ------------------------------- claims ------------------------------------

/-- C2: `is_tag v` holds iff `v` contains no plus character; `is_rc_tag v`
holds iff the pre-plus portion of `v` contains the substring rc; `is_dev_tag v`
holds iff the last dot-delimited component of `v` starts with dev;
`is_release_tag v` holds iff `is_tag v` and neither `is_rc_tag v` nor
`is_dev_tag v`; and on the examples: "1.2.0" is a release tag while
"1.2.0rc1", "1.2.0.dev3" and "1.2.0+5.abcdef" are not. -/
theorem C2_version_classifiers :
    (∀ v : String, is_tag v = true ↔ '+' ∉ v.toList) ∧
    (∀ v : String, is_rc_tag v = Except.ok true ↔
      "rc".toList <:+: (v.toList.takeWhile (fun x => x != '+'))) ∧
    (∀ v : String, is_dev_tag v = Except.ok true ↔
      "dev".toList <+: ((splitOnChar '.' v.toList).getLastD [])) ∧
    (∀ v : String, is_release_tag v = Except.ok true ↔
      (is_tag v = true ∧
        ¬(is_rc_tag v = Except.ok true ∨ is_dev_tag v = Except.ok true))) ∧
    is_release_tag "1.2.0" = Except.ok true ∧
    is_release_tag "1.2.0rc1" = Except.ok false ∧
    is_release_tag "1.2.0.dev3" = Except.ok false ∧
    is_release_tag "1.2.0+5.abcdef" = Except.ok false := by
  have hplus : ("+" : String).toList = ['+'] := rfl
  refine ⟨?_, ?_, ?_, ?_, ?_, ?_, ?_, ?_⟩
  · intro v
    constructor
    · intro ht hm
      rw [is_tag] at ht
      have hx : pyIn "+" v = true := by
        rw [pyIn_iff, hplus, singleton_infix_iff]; exact hm
      rw [hx] at ht
      exact absurd ht (by decide)
    · intro hm
      rw [is_tag]
      cases hb : pyIn "+" v with
      | false => rfl
      | true =>
        rw [pyIn_iff, hplus, singleton_infix_iff] at hb
        exact absurd hb hm
  · intro v
    simp only [is_rc_tag_eq, Except.ok.injEq]
    rw [is_rc_tag_t, pyIn_iff, base_t, pySplit_headD]
    exact Iff.rfl
  · intro v
    simp only [is_dev_tag_eq, Except.ok.injEq]
    rw [is_dev_tag_t, pyStartswith_iff, pySplit_getLastD]
    exact Iff.rfl
  · intro v
    simp only [is_release_tag_eq, is_rc_tag_eq, is_dev_tag_eq, Except.ok.injEq]
    rw [is_release_tag_t]
    cases htag : is_tag v <;> cases hrc : is_rc_tag_t v <;>
      cases hdev : is_dev_tag_t v <;> simp
  · rfl
  · rfl
  · rfl
  · rfl

/-- C3: `same_version_different_build v1 v2` (the spec calls it
same_release_line) holds iff `v2`, as a string, starts with the portion of
`v1` before the first plus; and on the examples it accepts
("1.2.0", "1.2.0+5.abcdef") and rejects ("1.2.0", "1.3.0+1.abc"). -/
theorem C3_same_release_line :
    (∀ v1 v2 : String, same_version_different_build v1 v2 = Except.ok true ↔
      (v1.toList.takeWhile (fun x => x != '+')) <+: v2.toList) ∧
    same_version_different_build "1.2.0" "1.2.0+5.abcdef" = Except.ok true ∧
    same_version_different_build "1.2.0" "1.3.0+1.abc" = Except.ok false := by
  refine ⟨?_, rfl, rfl⟩
  intro v1 v2
  simp only [svdb_eq, Except.ok.injEq]
  rw [svdb_t, pyStartswith_iff, base_t, pySplit_headD, string_toList_mk]

/-- C7: on the channel named main, the upload-and-purge operation performs no
deletions and leaves the hosted set unchanged, whatever the new artifact
filepath and hosted set are (the purge is short-circuited before any removal
candidates are computed). -/
theorem C7_main_channel_no_purge :
    ∀ (hosted : List BinstarFile) (filepath : String),
      binstar_upload_and_purge "main" hosted filepath = Except.ok ([], hosted) := by
  intro hosted filepath
  simp [binstar_upload_and_purge]

/-- C8: each version classifier is total on all input strings, the empty
string included: `is_tag` is a Boolean function, and `is_dev_tag`,
`is_rc_tag`, `is_release_tag` always return a Boolean rather than raising
(no empty-split crash). -/
theorem C8_classifiers_total :
    (∀ v : String, is_tag v = true ∨ is_tag v = false) ∧
    (∀ v : String, ∃ b1 b2 b3 : Bool,
      is_dev_tag v = Except.ok b1 ∧ is_rc_tag v = Except.ok b2 ∧
      is_release_tag v = Except.ok b3) ∧
    is_release_tag "" = Except.ok true ∧
    is_dev_tag "" = Except.ok false ∧
    is_rc_tag "" = Except.ok false ∧
    is_release_tag "abc" = Except.ok true :=
  ⟨fun v => Bool.eq_false_or_eq_true (is_tag v),
   fun v => ⟨is_dev_tag_t v, is_rc_tag_t v, is_release_tag_t v,
     is_dev_tag_eq v, is_rc_tag_eq v, is_release_tag_eq v⟩,
   rfl, rfl, rfl, rfl⟩

/-- C1: for every new-artifact filepath (whose filename has a version token)
and every list of well-formed hosted records, `files_to_remove` returns
exactly those hosted records with the same name, configuration and platform
as the new artifact, a different version, a version that is not a release
tag, and a version on the same release line as the new version; in
particular, on the retention scenario of the spec (new artifact
widget-1.3.0+2.def-py27.tar.bz2 on platform linux-64) the removal set is
exactly the hosted record widget-1.3.0+1.ccc-py27 on linux-64. -/
theorem C1_files_to_remove :
    (∀ (all_files : List BinstarFile) (filepath : String),
      2 ≤ (pySplit (posix_split filepath).2 '-').length →
      (∀ f ∈ all_files, wf f = true) →
      files_to_remove all_files filepath = Except.ok (all_files.filter
        (removal_condition (name_fn_t (posix_split filepath).2)
          (configuration_fn_t (posix_split filepath).2)
          (platform_from_binstar_filepath filepath)
          (version_fn_t (posix_split filepath).2)))) ∧
    files_to_remove
      [⟨"u/widget/1.2.0+9.aaa/linux-64/widget-1.2.0+9.aaa-py27.tar.bz2"⟩,
       ⟨"u/widget/1.3.0+1.ccc/linux-64/widget-1.3.0+1.ccc-py27.tar.bz2"⟩,
       ⟨"u/widget/1.3.0+1.ccc/linux-64/widget-1.3.0+1.ccc-py36.tar.bz2"⟩,
       ⟨"u/widget/1.3.0/linux-64/widget-1.3.0-py27.tar.bz2"⟩]
      "linux-64/widget-1.3.0+2.def-py27.tar.bz2" =
      Except.ok [⟨"u/widget/1.3.0+1.ccc/linux-64/widget-1.3.0+1.ccc-py27.tar.bz2"⟩] :=
  ⟨fun all_files filepath h1 h2 => files_to_remove_eq all_files filepath h1 h2,
   by decide⟩

/-- C1 witness: the general filter characterization applied to the concrete
retention scenario, with both hypotheses discharged by evaluation. -/
theorem C1_witness :
    files_to_remove
      [⟨"u/widget/1.2.0+9.aaa/linux-64/widget-1.2.0+9.aaa-py27.tar.bz2"⟩,
       ⟨"u/widget/1.3.0+1.ccc/linux-64/widget-1.3.0+1.ccc-py27.tar.bz2"⟩,
       ⟨"u/widget/1.3.0+1.ccc/linux-64/widget-1.3.0+1.ccc-py36.tar.bz2"⟩,
       ⟨"u/widget/1.3.0/linux-64/widget-1.3.0-py27.tar.bz2"⟩]
      "linux-64/widget-1.3.0+2.def-py27.tar.bz2" =
      Except.ok (List.filter
        (removal_condition
          (name_fn_t (posix_split "linux-64/widget-1.3.0+2.def-py27.tar.bz2").2)
          (configuration_fn_t (posix_split "linux-64/widget-1.3.0+2.def-py27.tar.bz2").2)
          (platform_from_binstar_filepath "linux-64/widget-1.3.0+2.def-py27.tar.bz2")
          (version_fn_t (posix_split "linux-64/widget-1.3.0+2.def-py27.tar.bz2").2))
        [⟨"u/widget/1.2.0+9.aaa/linux-64/widget-1.2.0+9.aaa-py27.tar.bz2"⟩,
         ⟨"u/widget/1.3.0+1.ccc/linux-64/widget-1.3.0+1.ccc-py27.tar.bz2"⟩,
         ⟨"u/widget/1.3.0+1.ccc/linux-64/widget-1.3.0+1.ccc-py36.tar.bz2"⟩,
         ⟨"u/widget/1.3.0/linux-64/widget-1.3.0-py27.tar.bz2"⟩]) :=
  C1_files_to_remove.1
    [⟨"u/widget/1.2.0+9.aaa/linux-64/widget-1.2.0+9.aaa-py27.tar.bz2"⟩,
     ⟨"u/widget/1.3.0+1.ccc/linux-64/widget-1.3.0+1.ccc-py27.tar.bz2"⟩,
     ⟨"u/widget/1.3.0+1.ccc/linux-64/widget-1.3.0+1.ccc-py36.tar.bz2"⟩,
     ⟨"u/widget/1.3.0/linux-64/widget-1.3.0-py27.tar.bz2"⟩]
    "linux-64/widget-1.3.0+2.def-py27.tar.bz2" (by decide) (by decide)

/-- C9: the same-release-line relation is reflexive (every version string
starts with its own pre-plus portion), so a hosted record carrying exactly
the new version is excluded by the retention condition only through the
separate version-inequality conjunct. -/
theorem C9_same_release_line_refl :
    (∀ v : String, same_version_different_build v v = Except.ok true) ∧
    (∀ (n c p v : String) (f : BinstarFile), version_t f = v →
      removal_condition n c p v f = false) := by
  constructor
  · intro v
    rw [svdb_eq]
    have hx : svdb_t v v = true := by
      rw [svdb_t, pyStartswith_iff, base_t, pySplit_headD, string_toList_mk]
      exact List.takeWhile_prefix _
    rw [hx]
  · intro n c p v f hv
    rw [removal_condition, hv]
    simp

/-- C9 witness: reflexivity at the scenario version, and exclusion of a
hosted record whose version equals the new version. -/
theorem C9_witness :
    same_version_different_build "1.3.0+2.def" "1.3.0+2.def" = Except.ok true ∧
    removal_condition "widget" "py27" "linux-64" "1.3.0+1.ccc"
      ⟨"u/widget/1.3.0+1.ccc/linux-64/widget-1.3.0+1.ccc-py27.tar.bz2"⟩ = false :=
  ⟨C9_same_release_line_refl.1 "1.3.0+2.def",
   C9_same_release_line_refl.2 "widget" "py27" "linux-64" "1.3.0+1.ccc"
     ⟨"u/widget/1.3.0+1.ccc/linux-64/widget-1.3.0+1.ccc-py27.tar.bz2"⟩ (by decide)⟩

/-- C4: parsing the hosted identifier of the round-trip example yields
user acme, name widget, version 1.2.0+5.abc, platform linux-64 and
configuration py27; and in general, for an identifier with at least five
slash segments (before and after backslash normalization) whose fifth
segment has at least three dash tokens, user is segment 0, name is
segment 1, version is segment 2, platform is normalized segment 3, and
configuration is the third dash token of normalized segment 4 with the text
after the first dot removed. -/
theorem C4_hosted_identifier_parsing :
    (BinstarFile.user ⟨"acme/widget/1.2.0+5.abc/linux-64/widget-1.2.0+5.abc-py27.tar.bz2"⟩ =
        Except.ok "acme" ∧
      BinstarFile.name ⟨"acme/widget/1.2.0+5.abc/linux-64/widget-1.2.0+5.abc-py27.tar.bz2"⟩ =
        Except.ok "widget" ∧
      BinstarFile.version ⟨"acme/widget/1.2.0+5.abc/linux-64/widget-1.2.0+5.abc-py27.tar.bz2"⟩ =
        Except.ok "1.2.0+5.abc" ∧
      BinstarFile.platform ⟨"acme/widget/1.2.0+5.abc/linux-64/widget-1.2.0+5.abc-py27.tar.bz2"⟩ =
        Except.ok "linux-64" ∧
      BinstarFile.configuration ⟨"acme/widget/1.2.0+5.abc/linux-64/widget-1.2.0+5.abc-py27.tar.bz2"⟩ =
        Except.ok "py27") ∧
    (∀ s : String,
      5 ≤ (pySplit s '/').length →
      5 ≤ (pySplit (pyReplace s '\\' '/') '/').length →
      3 ≤ (pySplit ((pySplit (pyReplace s '\\' '/') '/').getD 4 "") '-').length →
      BinstarFile.user ⟨s⟩ = Except.ok ((pySplit s '/').getD 0 "") ∧
      BinstarFile.name ⟨s⟩ = Except.ok ((pySplit s '/').getD 1 "") ∧
      BinstarFile.version ⟨s⟩ = Except.ok ((pySplit s '/').getD 2 "") ∧
      BinstarFile.platform ⟨s⟩ =
        Except.ok ((pySplit (pyReplace s '\\' '/') '/').getD 3 "") ∧
      BinstarFile.configuration ⟨s⟩ = Except.ok
        ((pySplit ((pySplit ((pySplit (pyReplace s '\\' '/') '/').getD 4 "") '-').getD 2 "")
          '.').headD "")) := by
  constructor
  · exact ⟨rfl, rfl, rfl, rfl, rfl⟩
  · intro s h5 h5n h3
    have hproj : (BinstarFile.mk s).full_name = s := rfl
    refine ⟨pyIdx_of_lt (pySplit s '/') 0 "" (by omega),
      pyIdx_of_lt (pySplit s '/') 1 "" (by omega),
      pyIdx_of_lt (pySplit s '/') 2 "" (by omega),
      pyIdx_of_lt (pySplit (pyReplace s '\\' '/') '/') 3 "" (by omega), ?_⟩
    rw [BinstarFile.configuration, hproj,
      pyIdx_of_lt (pySplit (pyReplace s '\\' '/') '/') 4 "" (by omega)]
    simp only [except_bind_ok]
    rw [pyIdx_of_lt _ 2 "" (by omega)]
    simp only [except_bind_ok]
    rw [pyIdx_zero _ "" (pySplit_ne_nil _ '.')]

/-- C4 witness: the general parsing rule applied to the round-trip example,
hypotheses discharged by evaluation. -/
theorem C4_witness :
    5 ≤ (pySplit "acme/widget/1.2.0+5.abc/linux-64/widget-1.2.0+5.abc-py27.tar.bz2" '/').length ∧
    BinstarFile.user ⟨"acme/widget/1.2.0+5.abc/linux-64/widget-1.2.0+5.abc-py27.tar.bz2"⟩ =
      Except.ok ((pySplit "acme/widget/1.2.0+5.abc/linux-64/widget-1.2.0+5.abc-py27.tar.bz2" '/').getD 0 "") :=
  ⟨by decide,
   (C4_hosted_identifier_parsing.2
     "acme/widget/1.2.0+5.abc/linux-64/widget-1.2.0+5.abc-py27.tar.bz2"
     (by decide) (by decide) (by decide)).1⟩

/-- C5 counterexample: the claim fails as stated. On the empty raw output
(which does not split into three dash parts) the resolver raises an index
error instead of returning the raw output unchanged; and on the raw output
vabc it returns abc, the leading-v-stripped string, which differs from the
raw output vabc. -/
theorem C5_counterexample :
    version_from_git_tags "" = Except.error PyErr.indexError ∧
    version_from_git_tags "vabc" = Except.ok "abc" ∧ ("abc" : String) ≠ "vabc" :=
  ⟨rfl, rfl, by decide⟩

/-- C5 (amended): for every nonempty raw git-describe output, after stripping
a leading v or V, a three-part split BASE-NCOMMITS-SHA is rewritten to
BASE+NCOMMITS.SHA, and a split into any other number of parts returns the
stripped string without raising. -/
theorem C5_git_describe_rewrite :
    (∀ (raw b n sha : String), raw ≠ "" →
      pySplit (strip_v raw) '-' = [b, n, sha] →
      version_from_git_tags raw = Except.ok (b ++ "+" ++ n ++ "." ++ sha)) ∧
    (∀ raw : String, raw ≠ "" → (pySplit (strip_v raw) '-').length ≠ 3 →
      version_from_git_tags raw = Except.ok (strip_v raw)) := by
  have key : ∀ raw : String, raw ≠ "" →
      version_from_git_tags raw =
        (match pySplit (strip_v raw) '-' with
          | [b, n, sha] => Except.ok (b ++ "+" ++ n ++ "." ++ sha)
          | _ => Except.ok (strip_v raw)) := by
    intro raw hne
    cases hraw : raw.toList with
    | nil => exact absurd (toList_eq_nil hraw) hne
    | cons c cs =>
      have hstrip : strip_v raw = if c.toLower = 'v' then raw.drop 1 else raw := by
        rw [strip_v, hraw, List.headD_cons]
      simp only [version_from_git_tags, hraw, ← hstrip]
  constructor
  · intro raw b n sha hne hsp
    rw [key raw hne, hsp]
  · intro raw hne hlen
    rw [key raw hne]
    cases hsp : pySplit (strip_v raw) '-' with
    | nil => rfl
    | cons x1 t1 =>
      cases t1 with
      | nil => rfl
      | cons x2 t2 =>
        cases t2 with
        | nil => rfl
        | cons x3 t3 =>
          cases t3 with
          | nil => exact absurd (by rw [hsp]; rfl) hlen
          | cons x4 t4 => rfl

/-- C5 witness: the amended behavior at a three-part raw output with a
leading v, and at a dashless raw output. -/
theorem C5_witness :
    version_from_git_tags "v1.2.0-5-gabc" =
      Except.ok ("1.2.0" ++ "+" ++ "5" ++ "." ++ "gabc") ∧
    version_from_git_tags "foo" = Except.ok (strip_v "foo") :=
  ⟨C5_git_describe_rewrite.1 "v1.2.0-5-gabc" "1.2.0" "5" "gabc"
     (by decide) (by decide),
   C5_git_describe_rewrite.2 "foo" (by decide) (by decide)⟩

/-- C6 counterexample: on the two-segment identifier a/b, reading the
version field fails with a plain index error, which is not the classified
malformed-identifier error the claim requires. -/
theorem C6_counterexample :
    BinstarFile.version ⟨"a/b"⟩ = Except.error PyErr.indexError ∧
    Except.error PyErr.indexError ≠
      (Except.error PyErr.malformedIdentifier : Except PyErr String) :=
  ⟨rfl, by decide⟩

/-- C6 (amended): for every identifier with fewer than three slash segments,
reading the version field of the constructed record fails, but with the
generic unclassified index error rather than a malformed-identifier error. -/
theorem C6_short_identifier_index_error :
    ∀ s : String, (pySplit s '/').length < 3 →
      BinstarFile.version ⟨s⟩ = Except.error PyErr.indexError := by
  intro s h
  exact pyIdx_err_of_le (pySplit s '/') 2 (by omega)

/-- C6 witness: the amended claim at the concrete identifier a/b. -/
theorem C6_witness :
    (pySplit "a/b" '/').length < 3 ∧
    BinstarFile.version ⟨"a/b"⟩ = Except.error PyErr.indexError :=
  ⟨by decide, C6_short_identifier_index_error "a/b" (by decide)⟩

/-- C10: on a filename with exactly three dash tokens, the hosted-identifier
configuration (third dash token of the last slash segment, extension
stripped) agrees with the filename-only configuration (last dash token,
extension stripped); on a filename with four dash tokens the two extractors
return different values (1 versus py27); and the retention filter, which
compares the new last-token configuration against each hosted third-token
configuration, therefore excludes a hosted record carrying that very same
four-token filename. -/
theorem C10_configuration_extractors :
    (∀ u n ver plat fn : String,
      '/' ∉ u.toList → '/' ∉ n.toList → '/' ∉ ver.toList →
      '/' ∉ plat.toList → '/' ∉ fn.toList →
      '\\' ∉ u.toList → '\\' ∉ n.toList → '\\' ∉ ver.toList →
      '\\' ∉ plat.toList → '\\' ∉ fn.toList →
      (pySplit fn '-').length = 3 →
      BinstarFile.configuration ⟨u ++ "/" ++ n ++ "/" ++ ver ++ "/" ++ plat ++ "/" ++ fn⟩ =
        configuration_from_binstar_filename fn) ∧
    BinstarFile.configuration ⟨"u/my/1.0/p/my-widget-1.0-py27.tar.bz2"⟩ =
      Except.ok "1" ∧
    configuration_from_binstar_filename "my-widget-1.0-py27.tar.bz2" =
      Except.ok "py27" ∧
    ("1" : String) ≠ "py27" ∧
    files_to_remove [⟨"u/my/1.0/p/my-widget-1.0-py27.tar.bz2"⟩]
      "p/my-widget-1.0-py27.tar.bz2" = Except.ok [] := by
  refine ⟨?_, rfl, rfl, by decide, by decide⟩
  intro u n ver plat fn hu hn hv hp hf bu bn bv bp bf hlen
  have hslash : ("/" : String).toList = ['/'] := rfl
  have hfull : (u ++ "/" ++ n ++ "/" ++ ver ++ "/" ++ plat ++ "/" ++ fn).toList =
      u.toList ++ '/' :: (n.toList ++ '/' ::
        (ver.toList ++ '/' :: (plat.toList ++ '/' :: fn.toList))) := by
    simp [string_toList_append, hslash, List.append_assoc]
  have hnb : '\\' ∉ (u ++ "/" ++ n ++ "/" ++ ver ++ "/" ++ plat ++ "/" ++ fn).toList := by
    rw [hfull]
    intro hmem
    simp only [List.mem_append, List.mem_cons] at hmem
    rcases hmem with h | h | h | h | h | h | h | h | h
    exacts [bu h, absurd h (by decide), bn h, absurd h (by decide), bv h,
      absurd h (by decide), bp h, absurd h (by decide), bf h]
  have hrep : pyReplace (u ++ "/" ++ n ++ "/" ++ ver ++ "/" ++ plat ++ "/" ++ fn) '\\' '/' =
      u ++ "/" ++ n ++ "/" ++ ver ++ "/" ++ plat ++ "/" ++ fn :=
    pyReplace_eq_self _ _ _ hnb
  have hsplit : splitOnChar '/' ((u ++ "/" ++ n ++ "/" ++ ver ++ "/" ++ plat ++ "/" ++ fn).toList) =
      [u.toList, n.toList, ver.toList, plat.toList, fn.toList] := by
    rw [hfull, splitOnChar_append _ _ _ hu, splitOnChar_append _ _ _ hn,
      splitOnChar_append _ _ _ hv, splitOnChar_append _ _ _ hp,
      splitOnChar_not_mem _ _ hf]
  have hps : pySplit (u ++ "/" ++ n ++ "/" ++ ver ++ "/" ++ plat ++ "/" ++ fn) '/' =
      [u, n, ver, plat, fn] := by
    rw [pySplit, hsplit]
    simp [string_mk_toList]
  obtain ⟨t1, t2, t3, hfn⟩ := List.length_eq_three.1 hlen
  have hproj : (BinstarFile.mk (u ++ "/" ++ n ++ "/" ++ ver ++ "/" ++ plat ++ "/" ++ fn)).full_name =
      u ++ "/" ++ n ++ "/" ++ ver ++ "/" ++ plat ++ "/" ++ fn := rfl
  rw [BinstarFile.configuration, hproj, hrep, hps]
  rw [show pyIdx [u, n, ver, plat, fn] 4 = Except.ok fn from rfl]
  simp only [except_bind_ok]
  rw [hfn]
  rw [show pyIdx [t1, t2, t3] 2 = Except.ok t3 from rfl]
  simp only [except_bind_ok]
  rw [configuration_from_binstar_filename, hfn]
  rw [show pyLast [t1, t2, t3] = Except.ok t3 from rfl]
  simp only [except_bind_ok]

/-- C10 witness: the extractor agreement applied to a concrete three-token
filename inside a full hosted identifier. -/
theorem C10_witness :
    BinstarFile.configuration
      ⟨"acme" ++ "/" ++ "widget" ++ "/" ++ "1.2.0" ++ "/" ++ "linux-64" ++ "/" ++
        "widget-1.2.0-py27.tar.bz2"⟩ =
      configuration_from_binstar_filename "widget-1.2.0-py27.tar.bz2" :=
  C10_configuration_extractors.1 "acme" "widget" "1.2.0" "linux-64"
    "widget-1.2.0-py27.tar.bz2" (by decide) (by decide) (by decide) (by decide)
    (by decide) (by decide) (by decide) (by decide) (by decide) (by decide)
    (by decide)

end Condaci
